import Mathlib

/-!
Verification development for the patient-vitals streaming producer
(`src/producer.py`), a shallow embedding in Lean 4.

Python floats are modelled as rationals (ℚ), Python ints as ℤ.
Dictionary fields that may be absent are `Option` fields; Python
truthiness tests (`if v.get("k"):`) are modelled explicitly (absent,
zero and empty-string values are falsy).  `random.randint(a, b)`
raises `ValueError` when `a > b`, so the sampler is `Option`-valued;
randomness is supplied by an explicit stream of draws.
-/

/-- Python `int(x)` on a float truncates toward zero. -/
def truncQ (q : ℚ) : ℤ := if 0 ≤ q then ⌊q⌋ else ⌈q⌉

/-- Round half to even at the integers (Python `round(x)` tie behaviour). -/
def roundHalfEven (q : ℚ) : ℤ :=
  let f := ⌊q⌋
  let r := q - (f : ℚ)
  if r < 1/2 then f
  else if 1/2 < r then f + 1
  else if f % 2 = 0 then f else f + 1

/-- Python `round(x, 1)`. -/
def round1 (q : ℚ) : ℚ := (roundHalfEven (q * 10) : ℚ) / 10

/-- Average of a list of integers as a rational (`sum(xs)/len(xs)`). -/
def avgZ (l : List ℤ) : ℚ := ((l.sum : ℤ) : ℚ) / (l.length : ℚ)

/-- Average of a list of rationals (`sum(xs)/len(xs)`). -/
def avgQ (l : List ℚ) : ℚ := l.sum / (l.length : ℚ)

/-- Python `l[-3:]` generalised: the last `n` elements of a list. -/
def lastN (n : ℕ) (l : List α) : List α := l.drop (l.length - n)

/-- Split a character list at every occurrence of `c` (Python
`s.split(c)` for a one-character separator). -/
def splitChar (c : Char) : List Char → List (List Char)
  | [] => [[]]
  | a :: as =>
    if a = c then [] :: splitChar c as
    else
      match splitChar c as with
      | [] => [[a]]
      | l :: ls => (a :: l) :: ls

/-- Value of a non-empty digit run, `none` when a character is not a digit. -/
def digitsToNat : List Char → Option ℕ
  | [] => none
  | [c] => if c.isDigit then some (c.toNat - '0'.toNat) else none
  | c :: cs =>
    if c.isDigit then
      (digitsToNat cs).map (fun n => (c.toNat - '0'.toNat) * 10 ^ cs.length + n)
    else none

/-- Python `int(s)`: optional surrounding whitespace, optional sign,
then a non-empty digit run; `none` when the conversion raises. -/
def pyToInt (l : List Char) : Option ℤ :=
  let t := (((l.dropWhile Char.isWhitespace).reverse.dropWhile Char.isWhitespace).reverse)
  match t with
  | '-' :: rest => (digitsToNat rest).map (fun n => -(n : ℤ))
  | '+' :: rest => (digitsToNat rest).map (fun n => (n : ℤ))
  | rest => (digitsToNat rest).map (fun n => (n : ℤ))

/-- Python `s.strip()`. -/
def pyStrip (s : String) : String :=
  String.mk (((s.toList.dropWhile Char.isWhitespace).reverse.dropWhile Char.isWhitespace).reverse)

/-- Python `s.lower()` (ASCII, which covers the condition names used). -/
def pyLower (s : String) : String := String.mk (s.toList.map Char.toLower)

/-- Does the character list start with the pattern? -/
def startsWithChars : List Char → List Char → Bool
  | [], _ => true
  | _ :: _, [] => false
  | a :: as, b :: bs => a = b && startsWithChars as bs

/-- Does the character list contain the pattern as a contiguous run? -/
def containsChars (pat : List Char) : List Char → Bool
  | [] => pat.isEmpty
  | b :: bs => startsWithChars pat (b :: bs) || containsChars pat bs

/-- Python `pat in s` substring test. -/
def strContains (s pat : String) : Bool := containsChars pat.toList s.toList

/-! ## Data model (src/producer.py, §3 of the spec) -/

/-- One diagnosed condition on a subject (`condition.get("condition")`,
`condition.get("severity")` may be absent). -/
structure Condition where
  condition : Option String := none
  severity : Option String := none
  deriving Repr, DecidableEq

/-- One historical vitals record (fields may be absent in the document). -/
structure VitalsRecord where
  heart_rate : Option ℤ := none
  blood_pressure : Option String := none
  spo2 : Option ℚ := none
  deriving Repr, DecidableEq

/-- A subject roster document (`patient` dict); every field may be absent. -/
structure Patient where
  patient_id : Option String := none
  name : Option String := none
  diagnosed_conditions : Option (List Condition) := none
  vitals_history : Option (List VitalsRecord) := none
  deriving Repr, DecidableEq

/-- A `BaselineProfile`: the five per-subject ranges. -/
structure Baseline where
  heart_rate_range : ℤ × ℤ
  systolic_range : ℤ × ℤ
  diastolic_range : ℤ × ℤ
  temp_range : ℚ × ℚ
  spo2_range : ℚ × ℚ
  deriving Repr, DecidableEq

/-- The fixed default ranges (producer.py lines 47-53). -/
def defaultBaseline : Baseline :=
  { heart_rate_range := (60, 100)
    systolic_range := (110, 130)
    diastolic_range := (70, 85)
    temp_range := (36.1, 37.2)
    spo2_range := (95, 99) }

/-! ## BaselineEstimator (`get_patient_baseline_vitals`, lines 45-89) -/

/-- `s, d = map(int, bp.split("/"))` under `try`: `none` when the parse
raises (wrong number of parts, or a part is not an integer literal). -/
def parseBP (bp : String) : Option (ℤ × ℤ) :=
  match splitChar '/' bp.toList with
  | [a, b] =>
    match pyToInt a, pyToInt b with
    | some s, some d => some (s, d)
    | _, _ => none
  | _ => none

/-- `v["heart_rate"] ... if v.get("heart_rate")`: present and truthy (≠ 0). -/
def truthyHR (v : VitalsRecord) : Option ℤ :=
  v.heart_rate.bind (fun z => if z = 0 then none else some z)

/-- `v["blood_pressure"] ... if v.get("blood_pressure")`: present and
truthy (≠ ""). -/
def truthyBP (v : VitalsRecord) : Option String :=
  v.blood_pressure.bind (fun s => if s = "" then none else some s)

/-- `v["spo2"] ... if v.get("spo2")`: present and truthy (≠ 0). -/
def truthySpo2 (v : VitalsRecord) : Option ℚ :=
  v.spo2.bind (fun q => if q = 0 then none else some q)

/-- Lines 57-63: adjust the heart-rate range from history. -/
def adjustHR (recent : List VitalsRecord) (b : Baseline) : Baseline :=
  let hrValues := recent.filterMap truthyHR
  if hrValues.isEmpty then b
  else
    let avg := avgZ hrValues
    { b with heart_rate_range :=
        (max 50 (truncQ (avg - 15)), min 120 (truncQ (avg + 15))) }

/-- Lines 64-84: adjust the blood-pressure ranges from history.  The
systolic and diastolic lists grow in lockstep (an exception aborts both
appends), so they are modelled as one list of parsed pairs. -/
def adjustBP (recent : List VitalsRecord) (b : Baseline) : Baseline :=
  let bpValues := recent.filterMap truthyBP
  if bpValues.isEmpty then b
  else
    let pairs := bpValues.filterMap parseBP
    if pairs.isEmpty then b
    else
      let avgSys := avgZ (pairs.map Prod.fst)
      let avgDia := avgZ (pairs.map Prod.snd)
      { b with
        systolic_range :=
          (max 90 (truncQ (avgSys - 10)), min 160 (truncQ (avgSys + 10)))
        diastolic_range :=
          (max 60 (truncQ (avgDia - 8)), min 100 (truncQ (avgDia + 8))) }

/-- Lines 85-88: adjust the SpO2 range from history (no `int()` here). -/
def adjustSpo2 (recent : List VitalsRecord) (b : Baseline) : Baseline :=
  let spo2Values := recent.filterMap truthySpo2
  if spo2Values.isEmpty then b
  else
    let avg := avgQ spo2Values
    { b with spo2_range := (max 88 (avg - 3), min 100 (avg + 2)) }

/-- `get_patient_baseline_vitals` (lines 45-89): defaults, then — when the
history is present and non-empty — the three adjustments over the last 3
records, in source order (heart rate, blood pressure, SpO2). -/
def get_patient_baseline_vitals (p : Patient) : Baseline :=
  let hist := p.vitals_history.getD []
  if hist.isEmpty then defaultBaseline
  else
    let recent := lastN 3 hist
    adjustSpo2 recent (adjustBP recent (adjustHR recent defaultBaseline))

/-! ## RunStateStore (`is_simulation_running` / `set_simulation_running`,
lines 146-154).  The flag file is modelled as `Option String`: `none`
when the file does not exist, `some c` when it exists with content `c`. -/

/-- Lines 146-150: the file exists and its stripped content is "1". -/
def is_simulation_running (file : Option String) : Bool :=
  match file with
  | some c => pyStrip c == "1"
  | none => false

/-- Lines 152-154: overwrite the file with "1" or "0". -/
def set_simulation_running (flag : Bool) : Option String :=
  some (if flag then "1" else "0")

/-! ## VitalsSampler (`generate_patient_vitals`, lines 91-127)

The global random generator is modelled as two streams indexed by a
draw counter threaded through the computation: `ints i` feeds the i-th
`random.randint` call, `floats i` (clamped into `[0,1]`, the range of
`random.random()`) feeds the i-th `random.uniform` call. -/

/-- A deterministic stand-in for Python's global random generator. -/
structure RNG where
  ints : ℕ → ℕ
  floats : ℕ → ℚ

/-- `random.randint(a, b)`: a value in `[a, b]`; raises `ValueError`
(here `none`) when `a > b`. -/
def randint (g : RNG) (i : ℕ) (a b : ℤ) : Option (ℤ × ℕ) :=
  if a ≤ b then some (a + (g.ints i : ℤ) % (b - a + 1), i + 1) else none

/-- The unit-interval value of the i-th `random.random()` draw. -/
def unitDraw (q : ℚ) : ℚ := max 0 (min 1 q)

/-- `random.uniform(a, b) = a + (b-a)*random()`: never raises. -/
def runiform (g : RNG) (i : ℕ) (a b : ℚ) : ℚ × ℕ :=
  (a + (b - a) * unitDraw (g.floats i), i + 1)

/-- The mutable per-sample state of `generate_patient_vitals` while the
condition loop runs: the five vitals plus the RNG draw counter. -/
structure PState where
  hr : ℤ
  sys : ℤ
  dia : ℤ
  temp : ℚ
  spo2 : ℚ
  i : ℕ
  deriving Repr, DecidableEq

/-- Lines 99-111: one iteration of the condition loop.  Name and
severity default to "" when absent, matching is case-insensitive and by
substring on the name; the draws inside each branch cannot raise (their
bounds are constant), but the `Option` is kept for faithfulness. -/
def applyCond (g : RNG) (s : PState) (c : Condition) : Option PState :=
  let nm := pyLower (c.condition.getD "")
  let sev := pyLower (c.severity.getD "")
  if strContains nm "hypertension" && (sev == "moderate" || sev == "severe") then
    (randint g s.i 10 25).bind (fun d1 =>
    (randint g d1.2 5 15).bind (fun d2 =>
    some { s with sys := s.sys + d1.1, dia := s.dia + d2.1, i := d2.2 }))
  else if strContains nm "diabetes" then
    (randint g s.i 0 10).bind (fun d => some { s with hr := s.hr + d.1, i := d.2 })
  else if strContains nm "copd" || strContains nm "asthma" then
    let u := runiform g s.i 0 5
    some { s with spo2 := max 88 (s.spo2 - u.1), i := u.2 }
  else if strContains nm "fever" || strContains nm "infection" then
    let u := runiform g s.i 0.5 2.0
    (randint g u.2 5 20).bind (fun d =>
    some { s with temp := s.temp + u.1, hr := s.hr + d.1, i := d.2 })
  else
    some s

/-- The condition loop over the whole list, in listed order. -/
def applyConditions (g : RNG) (cs : List Condition) (s : PState) : Option PState :=
  cs.foldlM (applyCond g) s

/-- `if patient.get("diagnosed_conditions"):` — the iterated list
(absent or empty means the loop body never runs). -/
def conditionsOf (p : Patient) : List Condition :=
  p.diagnosed_conditions.getD []

/-- One generated `VitalsSample` (the dict built at lines 119-127). -/
structure VitalsSample where
  patient_id : String
  patient_name : String
  heart_rate : ℤ
  blood_pressure : String
  temperature_celsius : ℚ
  oxygen_saturation : ℚ
  timestamp : String
  deriving Repr, DecidableEq

/-- Lines 113-127: the final clamps to hard physiological bounds and the
construction of the sample record (blood pressure is formatted as
"{systolic}/{diastolic}" from the clamped values). -/
def clampSample (pid nm : String) (hr sys dia : ℤ) (temp spo2 : ℚ)
    (now : String) : VitalsSample :=
  { patient_id := pid
    patient_name := nm
    heart_rate := max 40 (min 180 hr)
    blood_pressure :=
      toString (max 80 (min 200 sys)) ++ "/" ++ toString (max 50 (min 120 dia))
    temperature_celsius := max 35 (min 42 temp)
    oxygen_saturation := max 70 (min 100 spo2)
    timestamp := now }

/-- `generate_patient_vitals(patient, baseline)` (lines 91-127).
`none` models an uncaught exception: `random.randint` on an empty range
(ValueError) or `patient["patient_id"]` on a record without an id
(KeyError).  `now` stands for `datetime.utcnow().isoformat()`. -/
def generate_patient_vitals (p : Patient) (b : Baseline) (g : RNG) (i0 : ℕ)
    (now : String) : Option (VitalsSample × ℕ) :=
  (randint g i0 b.heart_rate_range.1 b.heart_rate_range.2).bind (fun hri =>
  (randint g hri.2 b.systolic_range.1 b.systolic_range.2).bind (fun sysi =>
  (randint g sysi.2 b.diastolic_range.1 b.diastolic_range.2).bind (fun diai =>
  let tu := runiform g diai.2 b.temp_range.1 b.temp_range.2
  let su := runiform g tu.2 b.spo2_range.1 b.spo2_range.2
  (applyConditions g (conditionsOf p)
      { hr := hri.1, sys := sysi.1, dia := diai.1,
        temp := round1 tu.1, spo2 := round1 su.1, i := su.2 }).bind (fun st =>
  (p.patient_id).bind (fun pid =>
  some (clampSample pid (p.name.getD "Unknown")
          st.hr st.sys st.dia st.temp st.spo2 now, st.i))))))

/-! ## StreamPublisher (`send_vitals_to_kinesis`, lines 129-144)

The boto3 call is abstracted by a `transportOk` flag: `false` means the
`put_record` call raises, which the `except` turns into a `None`
return.  The partition key is `vitals_data[KINESIS_PARTITION_KEY]`; the
configured field name is a parameter, and looking up a non-string or
missing field raises inside the `try`, hence also returns `None`. -/

/-- String-valued field lookup on the sample dict. -/
def sampleStrField (v : VitalsSample) (k : String) : Option String :=
  if k == "patient_id" then some v.patient_id
  else if k == "patient_name" then some v.patient_name
  else if k == "blood_pressure" then some v.blood_pressure
  else if k == "timestamp" then some v.timestamp
  else none

/-- A successful `put_record` submission. -/
structure KinesisRecord where
  partitionKey : String
  payload : VitalsSample
  deriving Repr, DecidableEq

/-- `send_vitals_to_kinesis` (lines 129-144): returns the response on
success and `None` (never raises) when the ingestion call errors. -/
def send_vitals_to_kinesis (transportOk : Bool) (partKeyField : String)
    (v : VitalsSample) : Option KinesisRecord :=
  match sampleStrField v partKeyField with
  | none => none
  | some pk => if transportOk then some ⟨pk, v⟩ else none

/-! ## SimulationLoop (`main`, lines 156-202)

The persisted flag is read three times per cycle (the `while` guard,
once before each subject, and once after the `for`).  Because any other
process may rewrite the file between reads, the value returned by the
j-th read is an arbitrary schedule `σ : ℕ → Bool`.  A
`KeyboardInterrupt` can arrive while the loop is blocked in
`time.sleep`; `intr = some t` delivers it during the t-th sleep call.
The `while True` loop is given fuel; running out of fuel models a
truncated observation of a still-running loop (no `finally` yet). -/

/-- One processed subject: the flag-read index that admitted it, the
subject id, and whether its publish attempt succeeded. -/
structure LoopEvent where
  readIdx : ℕ
  pid : String
  pubOk : Bool
  deriving Repr, DecidableEq

/-- How one pass of the `for` loop over the roster ended. -/
inductive CycleStatus
  | complete
  | stoppedMid
  | interrupted
  | errored
  deriving Repr, DecidableEq

/-- The loop-local mutable state: events so far, next flag-read index,
RNG draw counter, publish counter, sleep counter. -/
structure CycleState where
  events : List LoopEvent
  k : ℕ
  ri : ℕ
  pj : ℕ
  sl : ℕ
  deriving Repr, DecidableEq

/-- `patient_baselines[pid]`: a Python dict lookup, last binding wins. -/
def lookupBaseline (m : List (String × Baseline)) (pid : String) : Option Baseline :=
  m.reverse.lookup pid

/-- Lines 177-188: the `for patient in active_patients` body.  Before
each subject the flag is read (line 178); `break` on false.  Then the
id and baseline lookups and the generation (exceptions end the whole
loop), the publish attempt whose result is ignored, and `time.sleep(1)`
during which an interrupt may arrive. -/
def runCycle (σ : ℕ → Bool) (g : RNG) (pub : ℕ → Bool) (intr : Option ℕ)
    (pkf now : String) (bm : List (String × Baseline)) :
    List Patient → CycleState → CycleState × CycleStatus
  | [], st => (st, .complete)
  | p :: rest, st =>
    match σ st.k with
    | false => ({ st with k := st.k + 1 }, .stoppedMid)
    | true =>
      let st1 : CycleState := { st with k := st.k + 1 }
      match p.patient_id with
      | none => (st1, .errored)
      | some pid =>
        match lookupBaseline bm pid with
        | none => (st1, .errored)
        | some b =>
          match generate_patient_vitals p b g st1.ri now with
          | none => (st1, .errored)
          | some (v, ri2) =>
            let resp := send_vitals_to_kinesis (pub st1.pj) pkf v
            let ev : LoopEvent := { readIdx := st.k, pid := pid, pubOk := resp.isSome }
            let st2 : CycleState :=
              { events := st1.events ++ [ev], k := st1.k, ri := ri2,
                pj := st1.pj + 1, sl := st1.sl + 1 }
            if intr = some st1.sl then (st2, .interrupted)
            else runCycle σ g pub intr pkf now bm rest st2

/-- How `main` ended. -/
inductive MainOutcome
  | emptyRoster
  | startError
  | finished
  | interrupted
  | errored
  | fuelOut
  deriving Repr, DecidableEq

/-- Lines 171-199: the `while is_simulation_running()` loop.  Guard read,
one cycle, the post-cycle read (line 190) — which happens even after a
mid-cycle stop — then `time.sleep(3)` (interruptible) and the next
iteration.  Exceptions and interrupts propagate out of the loop. -/
def runLoop (σ : ℕ → Bool) (g : RNG) (pub : ℕ → Bool) (intr : Option ℕ)
    (pkf now : String) (bm : List (String × Baseline)) (roster : List Patient) :
    ℕ → CycleState → CycleState × MainOutcome
  | 0, st =>
    match σ st.k with
    | false => ({ st with k := st.k + 1 }, .finished)
    | true => (st, .fuelOut)
  | fuel + 1, st =>
    match σ st.k with
    | false => ({ st with k := st.k + 1 }, .finished)
    | true =>
      let r := runCycle σ g pub intr pkf now bm roster { st with k := st.k + 1 }
      match r.2 with
      | .interrupted => (r.1, .interrupted)
      | .errored => (r.1, .errored)
      | _ =>
        match σ r.1.k with
        | false => ({ r.1 with k := r.1.k + 1 }, .finished)
        | true =>
          let st2 : CycleState := { r.1 with k := r.1.k + 1 }
          if intr = some st2.sl then ({ st2 with sl := st2.sl + 1 }, .interrupted)
          else runLoop σ g pub intr pkf now bm roster fuel { st2 with sl := st2.sl + 1 }

/-- The observable result of one `main()` run: the processed subjects,
the sequence of values written to the RunState file, and how it ended. -/
structure MainResult where
  processed : List LoopEvent
  storeWrites : List Bool
  outcome : MainOutcome
  deriving Repr, DecidableEq

/-- The loop-local state at entry of the `while` loop. -/
def initCycleState : CycleState := ⟨[], 0, 0, 0, 0⟩

/-- `main()` (lines 156-202).  `set_simulation_running(True)` first
(line 160); an empty roster returns *before* the `try`, so the
`finally` that writes `False` is skipped — likewise a `KeyError` while
building the baselines dict (lines 167-169).  Every exit of the
`try` block (normal stop, interrupt, error) reaches the `finally`
(line 201), which appends the `false` write. -/
def producerMain (roster : List Patient) (σ : ℕ → Bool) (g : RNG)
    (pub : ℕ → Bool) (intr : Option ℕ) (pkf now : String) (fuel : ℕ) : MainResult :=
  if roster.isEmpty then
    { processed := [], storeWrites := [true], outcome := .emptyRoster }
  else if roster.all (fun p => p.patient_id.isSome) then
    let bm := roster.map (fun p => (p.patient_id.getD "", get_patient_baseline_vitals p))
    let r := runLoop σ g pub intr pkf now bm roster fuel initCycleState
    match r.2 with
    | .fuelOut => { processed := r.1.events, storeWrites := [true], outcome := .fuelOut }
    | oc => { processed := r.1.events, storeWrites := [true, false], outcome := oc }
  else
    { processed := [], storeWrites := [true], outcome := .startError }

/-! ## Derived views and predicates used by the statements -/

/-- The last 3 history records the estimator looks at. -/
def recentOf (p : Patient) : List VitalsRecord := lastN 3 (p.vitals_history.getD [])

/-- The heart-rate values the estimator averages. -/
def hrValuesOf (p : Patient) : List ℤ := (recentOf p).filterMap truthyHR

/-- The parsed (systolic, diastolic) pairs the estimator averages. -/
def bpPairsOf (p : Patient) : List (ℤ × ℤ) :=
  ((recentOf p).filterMap truthyBP).filterMap parseBP

/-- The SpO2 values the estimator averages. -/
def spo2ValuesOf (p : Patient) : List ℚ := (recentOf p).filterMap truthySpo2

/-- A closed integer range that is non-empty and inside `[lo, hi]`. -/
def rangeGoodZ (r : ℤ × ℤ) (lo hi : ℤ) : Prop := r.1 ≤ r.2 ∧ lo ≤ r.1 ∧ r.2 ≤ hi

/-- A closed rational range that is non-empty and inside `[lo, hi]`. -/
def rangeGoodQ (r : ℚ × ℚ) (lo hi : ℚ) : Prop := r.1 ≤ r.2 ∧ lo ≤ r.1 ∧ r.2 ≤ hi

/-- Every range of the profile is non-empty and inside the hard
physiological bounds. -/
def goodBaseline (b : Baseline) : Prop :=
  rangeGoodZ b.heart_rate_range 40 180 ∧
  rangeGoodZ b.systolic_range 80 200 ∧
  rangeGoodZ b.diastolic_range 50 120 ∧
  rangeGoodQ b.temp_range 35 42 ∧
  rangeGoodQ b.spo2_range 70 100

/-- Hard-bound membership of one generated sample; the systolic and
diastolic components live inside the formatted blood-pressure string. -/
def sampleInBounds (v : VitalsSample) : Prop :=
  (40 ≤ v.heart_rate ∧ v.heart_rate ≤ 180) ∧
  (∃ s d : ℤ, v.blood_pressure = toString s ++ "/" ++ toString d ∧
      80 ≤ s ∧ s ≤ 200 ∧ 50 ≤ d ∧ d ≤ 120) ∧
  (35 ≤ v.temperature_celsius ∧ v.temperature_celsius ≤ 42) ∧
  (70 ≤ v.oxygen_saturation ∧ v.oxygen_saturation ≤ 100)

/-- The publish-insensitive part of a loop event. -/
def evCore (e : LoopEvent) : ℕ × String := (e.readIdx, e.pid)

/-- Replace a subject's history by its last 3 records. -/
def trimHist3 (p : Patient) : Patient :=
  { p with vitals_history := p.vitals_history.map (lastN 3) }

/-- Delete a record's blood-pressure string when it is the literal "N/A". -/
def scrubBP (v : VitalsRecord) : VitalsRecord :=
  if v.blood_pressure = some "N/A" then { v with blood_pressure := none } else v

/-- Delete every "N/A" blood-pressure entry from a subject's history. -/
def scrubNA (p : Patient) : Patient :=
  { p with vitals_history := p.vitals_history.map (List.map scrubBP) }

/-- Modelled from the spec: "Heart rate: average available heart_rate
values; new range = [max(50, avg−15), min(120, avg+15)]" — the formula
exactly as worded, with no integer truncation of `avg∓15`. -/
def specHeartRateRange (avg : ℚ) : ℚ × ℚ := (max 50 (avg - 15), min 120 (avg + 15))

/-! ## Concrete fixtures -/

/-- A fixed random source (every draw is the low end of its range). -/
def g0 : RNG := ⟨fun _ => 0, fun _ => 0⟩

/-- A subject whose single historical heart rate is 200. -/
def c3Patient : Patient := { vitals_history := some [{ heart_rate := some 200 }] }

/-- A subject with two historical heart rates averaging 87.5. -/
def c6Patient : Patient :=
  { vitals_history := some [{ heart_rate := some 85 }, { heart_rate := some 90 }] }

/-- A subject with three historical heart rates averaging 90. -/
def c6Patient90 : Patient :=
  { vitals_history := some [{ heart_rate := some 85 }, { heart_rate := some 90 },
                            { heart_rate := some 95 }] }

/-- A subject record with no subject identifier. -/
def c7NoId : Patient := { name := some "Bob" }

/-- A subject whose history has a malformed and a well-formed
blood-pressure string. -/
def c8Patient : Patient :=
  { vitals_history := some [{ blood_pressure := some "N/A" },
                            { blood_pressure := some "140/90" }] }

/-- A minimal subject with an id and nothing else. -/
def c4Patient : Patient := { patient_id := some "P1" }

/-- The blood-pressure branch of the estimator as a function of the
successfully parsed pairs alone. -/
def bpApply (pairs : List (ℤ × ℤ)) (b : Baseline) : Baseline :=
  if pairs.isEmpty then b
  else
    let avgSys := avgZ (pairs.map Prod.fst)
    let avgDia := avgZ (pairs.map Prod.snd)
    { b with
      systolic_range :=
        (max 90 (truncQ (avgSys - 10)), min 160 (truncQ (avgSys + 10)))
      diastolic_range :=
        (max 60 (truncQ (avgDia - 8)), min 100 (truncQ (avgDia + 8))) }

/-! ## Helper lemmas -/

theorem lastN_map (f : α → β) (l : List α) (n : ℕ) :
    lastN n (l.map f) = (lastN n l).map f := by
  simp only [lastN, List.length_map]
  exact (List.map_drop f l (l.length - n)).symm

theorem lastN_idem (l : List α) (n : ℕ) : lastN n (lastN n l) = lastN n l := by
  simp only [lastN, List.length_drop]
  have h : l.length - (l.length - n) - n = 0 := by omega
  rw [h, List.drop_zero]

theorem lastN_eq_nil_iff (l : List α) : lastN 3 l = [] ↔ l = [] := by
  simp only [lastN, List.drop_eq_nil_iff]
  constructor
  · intro h
    cases l with
    | nil => rfl
    | cons a as => simp at h; omega
  · intro h; simp [h]

theorem truthyHR_scrubBP (v : VitalsRecord) : truthyHR (scrubBP v) = truthyHR v := by
  simp only [scrubBP]
  split <;> rfl

theorem truthySpo2_scrubBP (v : VitalsRecord) :
    truthySpo2 (scrubBP v) = truthySpo2 v := by
  simp only [scrubBP]
  split <;> rfl

theorem bpParse_scrubBP (v : VitalsRecord) :
    (truthyBP (scrubBP v)).bind parseBP = (truthyBP v).bind parseBP := by
  obtain ⟨a, bp, c⟩ := v
  cases bp with
  | none => rfl
  | some s =>
    by_cases hs : s = "N/A"
    · subst hs
      have h1 : scrubBP ⟨a, some "N/A", c⟩ = ⟨a, none, c⟩ := by
        simp [scrubBP]
      rw [h1]
      have h2 : truthyBP (⟨a, none, c⟩ : VitalsRecord) = none := rfl
      have h3 : truthyBP (⟨a, some "N/A", c⟩ : VitalsRecord) = some "N/A" := by
        show (if ("N/A" : String) = "" then none else some "N/A") = some "N/A"
        rw [if_neg (by decide)]
      rw [h2, h3]
      decide
    · have h1 : scrubBP ⟨a, some s, c⟩ = ⟨a, some s, c⟩ := by
        simp [scrubBP, hs]
      rw [h1]

theorem filterMap_truthyHR_scrub (r : List VitalsRecord) :
    (r.map scrubBP).filterMap truthyHR = r.filterMap truthyHR := by
  rw [List.filterMap_map]
  exact List.filterMap_congr (fun a _ => truthyHR_scrubBP a)

theorem filterMap_truthySpo2_scrub (r : List VitalsRecord) :
    (r.map scrubBP).filterMap truthySpo2 = r.filterMap truthySpo2 := by
  rw [List.filterMap_map]
  exact List.filterMap_congr (fun a _ => truthySpo2_scrubBP a)

theorem pairs_scrub (r : List VitalsRecord) :
    ((r.map scrubBP).filterMap truthyBP).filterMap parseBP
      = (r.filterMap truthyBP).filterMap parseBP := by
  rw [List.filterMap_map, List.filterMap_filterMap, List.filterMap_filterMap]
  exact List.filterMap_congr (fun a _ => bpParse_scrubBP a)

theorem adjustHR_scrub (r : List VitalsRecord) (b : Baseline) :
    adjustHR (r.map scrubBP) b = adjustHR r b := by
  simp only [adjustHR, filterMap_truthyHR_scrub]

theorem adjustSpo2_scrub (r : List VitalsRecord) (b : Baseline) :
    adjustSpo2 (r.map scrubBP) b = adjustSpo2 r b := by
  simp only [adjustSpo2, filterMap_truthySpo2_scrub]

theorem adjustBP_eq_bpApply (r : List VitalsRecord) (b : Baseline) :
    adjustBP r b = bpApply ((r.filterMap truthyBP).filterMap parseBP) b := by
  simp only [adjustBP, bpApply]
  cases h : r.filterMap truthyBP with
  | nil => simp [h]
  | cons a as => simp [h]

theorem adjustBP_scrub (r : List VitalsRecord) (b : Baseline) :
    adjustBP (r.map scrubBP) b = adjustBP r b := by
  rw [adjustBP_eq_bpApply, adjustBP_eq_bpApply, pairs_scrub]

theorem isEmpty_map_scrub (l : List VitalsRecord) :
    (l.map scrubBP).isEmpty = l.isEmpty := by
  cases l <;> rfl

theorem hist_scrubNA (p : Patient) :
    (scrubNA p).vitals_history.getD [] = (p.vitals_history.getD []).map scrubBP := by
  cases h : p.vitals_history <;> simp [scrubNA, h]

theorem adjustHR_keeps (r : List VitalsRecord) (b : Baseline) :
    (adjustHR r b).systolic_range = b.systolic_range ∧
    (adjustHR r b).diastolic_range = b.diastolic_range ∧
    (adjustHR r b).temp_range = b.temp_range ∧
    (adjustHR r b).spo2_range = b.spo2_range := by
  simp only [adjustHR]
  split <;> exact ⟨rfl, rfl, rfl, rfl⟩

theorem adjustBP_keeps (r : List VitalsRecord) (b : Baseline) :
    (adjustBP r b).heart_rate_range = b.heart_rate_range ∧
    (adjustBP r b).temp_range = b.temp_range ∧
    (adjustBP r b).spo2_range = b.spo2_range := by
  simp only [adjustBP]
  split
  · exact ⟨rfl, rfl, rfl⟩
  · split <;> exact ⟨rfl, rfl, rfl⟩

theorem adjustSpo2_keeps (r : List VitalsRecord) (b : Baseline) :
    (adjustSpo2 r b).heart_rate_range = b.heart_rate_range ∧
    (adjustSpo2 r b).systolic_range = b.systolic_range ∧
    (adjustSpo2 r b).diastolic_range = b.diastolic_range ∧
    (adjustSpo2 r b).temp_range = b.temp_range := by
  simp only [adjustSpo2]
  split <;> exact ⟨rfl, rfl, rfl, rfl⟩

theorem isEmpty_lastN3 (l : List α) : (lastN 3 l).isEmpty = l.isEmpty := by
  cases l with
  | nil => rfl
  | cons a as =>
    cases hh : lastN 3 (a :: as) with
    | nil => exact absurd ((lastN_eq_nil_iff (a :: as)).mp hh) (by simp)
    | cons b bs => rfl

theorem adjustHR_val (r : List VitalsRecord) (b : Baseline)
    (h : r.filterMap truthyHR ≠ []) :
    (adjustHR r b).heart_rate_range =
      (max 50 (truncQ (avgZ (r.filterMap truthyHR) - 15)),
       min 120 (truncQ (avgZ (r.filterMap truthyHR) + 15))) := by
  simp only [adjustHR]
  rw [if_neg (by simpa [List.isEmpty_iff] using h)]

theorem adjustHR_id (r : List VitalsRecord) (b : Baseline)
    (h : r.filterMap truthyHR = []) : adjustHR r b = b := by
  simp only [adjustHR]
  rw [if_pos (by simp [h])]

theorem adjustSpo2_id (r : List VitalsRecord) (b : Baseline)
    (h : r.filterMap truthySpo2 = []) : adjustSpo2 r b = b := by
  simp only [adjustSpo2]
  rw [if_pos (by simp [h])]

theorem adjustSpo2_val (r : List VitalsRecord) (b : Baseline)
    (h : r.filterMap truthySpo2 ≠ []) :
    (adjustSpo2 r b).spo2_range =
      (max 88 (avgQ (r.filterMap truthySpo2) - 3),
       min 100 (avgQ (r.filterMap truthySpo2) + 2)) := by
  simp only [adjustSpo2]
  rw [if_neg (by simpa [List.isEmpty_iff] using h)]

theorem bpApply_nil (b : Baseline) : bpApply [] b = b := rfl

theorem bpApply_val (pairs : List (ℤ × ℤ)) (b : Baseline) (h : pairs ≠ []) :
    (bpApply pairs b).systolic_range =
      (max 90 (truncQ (avgZ (pairs.map Prod.fst) - 10)),
       min 160 (truncQ (avgZ (pairs.map Prod.fst) + 10))) ∧
    (bpApply pairs b).diastolic_range =
      (max 60 (truncQ (avgZ (pairs.map Prod.snd) - 8)),
       min 100 (truncQ (avgZ (pairs.map Prod.snd) + 8))) := by
  simp only [bpApply]
  rw [if_neg (by simpa [List.isEmpty_iff] using h)]
  exact ⟨rfl, rfl⟩

theorem le_list_sum (l : List ℚ) (lo : ℚ) (h : ∀ q ∈ l, lo ≤ q) :
    (l.length : ℚ) * lo ≤ l.sum := by
  induction l with
  | nil => simp
  | cons a as ih =>
    simp only [List.sum_cons, List.length_cons]
    have h1 : lo ≤ a := h a (by simp)
    have h2 : (as.length : ℚ) * lo ≤ as.sum := ih (fun q hq => h q (by simp [hq]))
    push_cast
    nlinarith [h1, h2]

theorem list_sum_le (l : List ℚ) (hi : ℚ) (h : ∀ q ∈ l, q ≤ hi) :
    l.sum ≤ (l.length : ℚ) * hi := by
  induction l with
  | nil => simp
  | cons a as ih =>
    simp only [List.sum_cons, List.length_cons]
    have h1 : a ≤ hi := h a (by simp)
    have h2 : as.sum ≤ (as.length : ℚ) * hi := ih (fun q hq => h q (by simp [hq]))
    push_cast
    nlinarith [h1, h2]

theorem avgQ_mem (l : List ℚ) (hne : l ≠ []) (lo hi : ℚ)
    (h : ∀ q ∈ l, lo ≤ q ∧ q ≤ hi) : lo ≤ avgQ l ∧ avgQ l ≤ hi := by
  have hl : (0:ℚ) < (l.length : ℚ) := by
    exact_mod_cast List.length_pos.mpr hne
  constructor
  · rw [avgQ, le_div_iff₀ hl]
    calc lo * (l.length : ℚ) = (l.length : ℚ) * lo := by ring
    _ ≤ l.sum := le_list_sum l lo (fun q hq => (h q hq).1)
  · rw [avgQ, div_le_iff₀ hl]
    calc l.sum ≤ (l.length : ℚ) * hi := list_sum_le l hi (fun q hq => (h q hq).2)
    _ = hi * (l.length : ℚ) := by ring

theorem avgZ_eq_avgQ (l : List ℤ) : avgZ l = avgQ (l.map (fun z : ℤ => (z : ℚ))) := by
  rw [avgZ, avgQ, List.length_map]
  congr 1
  push_cast
  simp

theorem avgZ_mem (l : List ℤ) (hne : l ≠ []) (lo hi : ℚ)
    (h : ∀ z ∈ l, lo ≤ (z : ℚ) ∧ (z : ℚ) ≤ hi) : lo ≤ avgZ l ∧ avgZ l ≤ hi := by
  rw [avgZ_eq_avgQ]
  apply avgQ_mem
  · simp [hne]
  · intro q hq
    obtain ⟨z, hz, rfl⟩ := List.mem_map.mp hq
    exact h z hz

theorem truncQ_ge (q : ℚ) (z : ℤ) (h0 : 0 ≤ q) (h : (z : ℚ) ≤ q) : z ≤ truncQ q := by
  rw [truncQ, if_pos h0]
  exact Int.le_floor.mpr h

theorem truncQ_le (q : ℚ) (z : ℤ) (h0 : 0 ≤ q) (h : q ≤ (z : ℚ)) : truncQ q ≤ z := by
  rw [truncQ, if_pos h0]
  have := Int.floor_le_floor h
  rwa [Int.floor_intCast] at this

theorem truncQ_add_nat (q : ℚ) (h0 : 0 ≤ q) (n : ℤ) (hn : 0 ≤ n) :
    truncQ (q + (n : ℚ)) = truncQ q + n := by
  have hn2 : (0:ℚ) ≤ (n : ℚ) := by exact_mod_cast hn
  rw [truncQ, truncQ, if_pos h0, if_pos (by linarith)]
  exact Int.floor_add_int q n

theorem hrRange_good (avg : ℚ) (h1 : 50 ≤ avg) (h2 : avg ≤ 120) :
    rangeGoodZ (max 50 (truncQ (avg - 15)), min 120 (truncQ (avg + 15))) 40 180 := by
  have h0 : (0:ℚ) ≤ avg - 15 := by linarith
  have t1 : (35:ℤ) ≤ truncQ (avg - 15) := truncQ_ge _ _ h0 (by push_cast; linarith)
  have t2 : truncQ (avg - 15) ≤ 105 := truncQ_le _ _ h0 (by push_cast; linarith)
  have t3 : truncQ (avg + 15) = truncQ (avg - 15) + 30 := by
    rw [show avg + 15 = (avg - 15) + ((30 : ℤ) : ℚ) by push_cast; ring]
    exact truncQ_add_nat _ h0 30 (by norm_num)
  simp only [rangeGoodZ]
  omega

theorem sysRange_good (avg : ℚ) (h1 : 90 ≤ avg) (h2 : avg ≤ 160) :
    rangeGoodZ (max 90 (truncQ (avg - 10)), min 160 (truncQ (avg + 10))) 80 200 := by
  have h0 : (0:ℚ) ≤ avg - 10 := by linarith
  have t1 : (80:ℤ) ≤ truncQ (avg - 10) := truncQ_ge _ _ h0 (by push_cast; linarith)
  have t2 : truncQ (avg - 10) ≤ 150 := truncQ_le _ _ h0 (by push_cast; linarith)
  have t3 : truncQ (avg + 10) = truncQ (avg - 10) + 20 := by
    rw [show avg + 10 = (avg - 10) + ((20 : ℤ) : ℚ) by push_cast; ring]
    exact truncQ_add_nat _ h0 20 (by norm_num)
  simp only [rangeGoodZ]
  omega

theorem diaRange_good (avg : ℚ) (h1 : 60 ≤ avg) (h2 : avg ≤ 100) :
    rangeGoodZ (max 60 (truncQ (avg - 8)), min 100 (truncQ (avg + 8))) 50 120 := by
  have h0 : (0:ℚ) ≤ avg - 8 := by linarith
  have t1 : (52:ℤ) ≤ truncQ (avg - 8) := truncQ_ge _ _ h0 (by push_cast; linarith)
  have t2 : truncQ (avg - 8) ≤ 92 := truncQ_le _ _ h0 (by push_cast; linarith)
  have t3 : truncQ (avg + 8) = truncQ (avg - 8) + 16 := by
    rw [show avg + 8 = (avg - 8) + ((16 : ℤ) : ℚ) by push_cast; ring]
    exact truncQ_add_nat _ h0 16 (by norm_num)
  simp only [rangeGoodZ]
  omega

theorem spo2Range_good (avg : ℚ) (h1 : 88 ≤ avg) (h2 : avg ≤ 100) :
    rangeGoodQ (max 88 (avg - 3), min 100 (avg + 2)) 70 100 := by
  refine ⟨?_, ?_, ?_⟩
  · apply le_min
    · exact max_le (by norm_num) (by linarith)
    · exact max_le (by linarith) (by linarith)
  · exact le_trans (by norm_num) (le_max_left _ _)
  · exact min_le_left _ _

/-- C3 (counterexample): a subject with a single historical heart rate
of 200 gets heart_rate_range (185, 120) — empty (185 > 120) and with a
lower endpoint outside the hard bound [40, 180] — so the claimed
invariant fails for arbitrary historical vitals. -/
theorem C3_counterexample :
    (get_patient_baseline_vitals c3Patient).heart_rate_range = (185, 120) ∧
    ¬ goodBaseline (get_patient_baseline_vitals c3Patient) := by
  have hvals : (lastN 3 (c3Patient.vitals_history.getD [])).filterMap truthyHR
      = [200] := by decide
  have hne : ¬ ((c3Patient.vitals_history.getD []).isEmpty = true) := by decide
  have h1 : (get_patient_baseline_vitals c3Patient).heart_rate_range = (185, 120) := by
    simp only [get_patient_baseline_vitals]
    rw [if_neg hne, (adjustSpo2_keeps _ _).1, (adjustBP_keeps _ _).1,
      adjustHR_val _ _ (by simp [hvals]), hvals]
    norm_num [avgZ, truncQ]
  refine ⟨h1, fun hg => ?_⟩
  simp only [goodBaseline, rangeGoodZ] at hg
  have h2 := hg.1.1
  rw [h1] at h2
  norm_num at h2

/-- C3 (amended): `Compute` is total (the embedding is a plain function:
no history makes it fail), and every range of the result is non-empty
and inside the hard physiological bounds *provided* each used
historical value lies inside the corresponding adjustment band —
heart rates in [50,120], systolic values in [90,160], diastolic values
in [60,100], SpO2 values in [88,100].  Without that restriction the
invariant is false (see the counterexample). -/
theorem C3_amended (p : Patient)
    (hhr : ∀ z ∈ hrValuesOf p, (50:ℤ) ≤ z ∧ z ≤ 120)
    (hbp : ∀ sd ∈ bpPairsOf p,
      ((90:ℤ) ≤ sd.1 ∧ sd.1 ≤ 160) ∧ ((60:ℤ) ≤ sd.2 ∧ sd.2 ≤ 100))
    (hsp : ∀ q ∈ spo2ValuesOf p, (88:ℚ) ≤ q ∧ q ≤ 100) :
    goodBaseline (get_patient_baseline_vitals p) := by
  by_cases hh : ((p.vitals_history.getD []).isEmpty = true)
  · simp only [get_patient_baseline_vitals]
    rw [if_pos hh]
    refine ⟨⟨?_, ?_, ?_⟩, ⟨?_, ?_, ?_⟩, ⟨?_, ?_, ?_⟩, ⟨?_, ?_, ?_⟩, ⟨?_, ?_, ?_⟩⟩ <;>
      norm_num [defaultBaseline]
  · simp only [get_patient_baseline_vitals]
    rw [if_neg hh]
    have hhr' : ∀ z ∈ (lastN 3 (p.vitals_history.getD [])).filterMap truthyHR,
        (50:ℤ) ≤ z ∧ z ≤ 120 := hhr
    have hbp' : ∀ sd ∈ ((lastN 3 (p.vitals_history.getD [])).filterMap
        truthyBP).filterMap parseBP,
        ((90:ℤ) ≤ sd.1 ∧ sd.1 ≤ 160) ∧ ((60:ℤ) ≤ sd.2 ∧ sd.2 ≤ 100) := hbp
    have hsp' : ∀ q ∈ (lastN 3 (p.vitals_history.getD [])).filterMap truthySpo2,
        (88:ℚ) ≤ q ∧ q ≤ 100 := hsp
    refine ⟨?_, ?_, ?_, ?_, ?_⟩
    · -- heart-rate range
      rw [(adjustSpo2_keeps _ _).1, (adjustBP_keeps _ _).1]
      cases hv : (lastN 3 (p.vitals_history.getD [])).filterMap truthyHR with
      | nil =>
        rw [adjustHR_id _ _ hv]
        exact ⟨by norm_num [defaultBaseline], by norm_num [defaultBaseline],
          by norm_num [defaultBaseline]⟩
      | cons a as =>
        rw [adjustHR_val _ _ (by rw [hv]; simp)]
        have hm := avgZ_mem ((lastN 3 (p.vitals_history.getD [])).filterMap truthyHR)
          (by rw [hv]; simp) 50 120 (fun z hz => by
            have hz2 := hhr' z hz
            exact ⟨by exact_mod_cast hz2.1, by exact_mod_cast hz2.2⟩)
        exact hrRange_good _ hm.1 hm.2
    · -- systolic range
      rw [(adjustSpo2_keeps _ _).2.1, adjustBP_eq_bpApply]
      cases hv : ((lastN 3 (p.vitals_history.getD [])).filterMap
          truthyBP).filterMap parseBP with
      | nil =>
        rw [bpApply_nil, (adjustHR_keeps _ _).1]
        exact ⟨by norm_num [defaultBaseline], by norm_num [defaultBaseline],
          by norm_num [defaultBaseline]⟩
      | cons a as =>
        rw [(bpApply_val (a :: as) _ (by simp)).1]
        rw [hv] at hbp'
        have hm := avgZ_mem ((a :: as).map Prod.fst)
          (by simp) 90 160 (fun z hz => by
            obtain ⟨sd, hsd, rfl⟩ := List.mem_map.mp hz
            have hz2 := (hbp' sd hsd).1
            exact ⟨by exact_mod_cast hz2.1, by exact_mod_cast hz2.2⟩)
        exact sysRange_good _ hm.1 hm.2
    · -- diastolic range
      rw [(adjustSpo2_keeps _ _).2.2.1, adjustBP_eq_bpApply]
      cases hv : ((lastN 3 (p.vitals_history.getD [])).filterMap
          truthyBP).filterMap parseBP with
      | nil =>
        rw [bpApply_nil, (adjustHR_keeps _ _).2.1]
        exact ⟨by norm_num [defaultBaseline], by norm_num [defaultBaseline],
          by norm_num [defaultBaseline]⟩
      | cons a as =>
        rw [(bpApply_val (a :: as) _ (by simp)).2]
        rw [hv] at hbp'
        have hm := avgZ_mem ((a :: as).map Prod.snd)
          (by simp) 60 100 (fun z hz => by
            obtain ⟨sd, hsd, rfl⟩ := List.mem_map.mp hz
            have hz2 := (hbp' sd hsd).2
            exact ⟨by exact_mod_cast hz2.1, by exact_mod_cast hz2.2⟩)
        exact diaRange_good _ hm.1 hm.2
    · -- temperature range
      rw [(adjustSpo2_keeps _ _).2.2.2, (adjustBP_keeps _ _).2.1,
        (adjustHR_keeps _ _).2.2.1]
      exact ⟨by norm_num [defaultBaseline], by norm_num [defaultBaseline],
        by norm_num [defaultBaseline]⟩
    · -- SpO2 range
      cases hv : (lastN 3 (p.vitals_history.getD [])).filterMap truthySpo2 with
      | nil =>
        rw [adjustSpo2_id _ _ hv, (adjustBP_keeps _ _).2.2,
          (adjustHR_keeps _ _).2.2.2]
        exact ⟨by norm_num [defaultBaseline], by norm_num [defaultBaseline],
          by norm_num [defaultBaseline]⟩
      | cons a as =>
        rw [adjustSpo2_val _ _ (by rw [hv]; simp)]
        have hm := avgQ_mem ((lastN 3 (p.vitals_history.getD [])).filterMap
            truthySpo2) (by rw [hv]; simp) 88 100 hsp'
        exact spo2Range_good _ hm.1 hm.2

/-- C3 (witness): the amended invariant instantiated on a subject whose
three historical heart rates (85, 90, 95) lie within the adjustment
band and whose history has no blood-pressure or SpO2 entries. -/
theorem C3_amended_witness : goodBaseline (get_patient_baseline_vitals c6Patient90) :=
  C3_amended c6Patient90 (by decide) (by decide) (by decide)

/-- C6 (counterexample): for two historical heart rates 85 and 90 the
average is 87.5, the code truncates `avg∓15` with `int()` and returns
the range (72, 102), while the claimed formula
[max(50, avg−15), min(120, avg+15)] gives (72.5, 102.5) — so the range
is not `[max(50, avg−15), min(120, avg+15)]` as stated. -/
theorem C6_counterexample :
    (get_patient_baseline_vitals c6Patient).heart_rate_range = (72, 102) ∧
    specHeartRateRange (avgZ (hrValuesOf c6Patient)) = (72.5, 102.5) ∧
    (((get_patient_baseline_vitals c6Patient).heart_rate_range.1 : ℚ),
      ((get_patient_baseline_vitals c6Patient).heart_rate_range.2 : ℚ))
      ≠ specHeartRateRange (avgZ (hrValuesOf c6Patient)) := by
  have hvals : (lastN 3 (c6Patient.vitals_history.getD [])).filterMap truthyHR
      = [85, 90] := by decide
  have hne : ¬ ((c6Patient.vitals_history.getD []).isEmpty = true) := by decide
  have h1 : (get_patient_baseline_vitals c6Patient).heart_rate_range = (72, 102) := by
    simp only [get_patient_baseline_vitals]
    rw [if_neg hne, (adjustSpo2_keeps _ _).1, (adjustBP_keeps _ _).1,
      adjustHR_val _ _ (by simp [hvals]), hvals]
    norm_num [avgZ, truncQ]
  have h2 : specHeartRateRange (avgZ (hrValuesOf c6Patient)) = (72.5, 102.5) := by
    have ha : avgZ (hrValuesOf c6Patient) = 87.5 := by
      have : hrValuesOf c6Patient = [85, 90] := hvals
      rw [this]
      norm_num [avgZ]
    rw [specHeartRateRange, ha]
    rw [max_eq_right (by norm_num), min_eq_right (by norm_num)]
    norm_num
  refine ⟨h1, h2, ?_⟩
  rw [h1, h2]
  intro hcontra
  rw [Prod.ext_iff] at hcontra
  norm_num at hcontra

/-- C6 (amended): the estimator uses only the last 3 history records,
and when heart-rate values are available it sets the range to
[max(50, int(avg−15)), min(120, int(avg+15))] — the spec formula with
Python's `int()` truncation toward zero applied to `avg∓15`; for three
values averaging 90 this is exactly [75, 105]. -/
theorem C6_amended :
    (∀ p : Patient,
      get_patient_baseline_vitals p = get_patient_baseline_vitals (trimHist3 p)) ∧
    (∀ p : Patient, hrValuesOf p ≠ [] →
      (get_patient_baseline_vitals p).heart_rate_range =
        (max 50 (truncQ (avgZ (hrValuesOf p) - 15)),
         min 120 (truncQ (avgZ (hrValuesOf p) + 15)))) ∧
    (get_patient_baseline_vitals c6Patient90).heart_rate_range = (75, 105) := by
  refine ⟨fun p => ?_, fun p h => ?_, ?_⟩
  · simp only [get_patient_baseline_vitals, trimHist3]
    have hh : (Option.map (lastN 3) p.vitals_history).getD []
        = lastN 3 (p.vitals_history.getD []) := by
      cases p.vitals_history <;> rfl
    rw [hh, isEmpty_lastN3, lastN_idem]
  · have hna : ¬ ((p.vitals_history.getD []).isEmpty = true) := by
      intro hemp
      apply h
      have : p.vitals_history.getD [] = [] := (List.isEmpty_iff).mp hemp
      show (lastN 3 (p.vitals_history.getD [])).filterMap truthyHR = []
      rw [this]
      rfl
    simp only [get_patient_baseline_vitals]
    rw [if_neg hna, (adjustSpo2_keeps _ _).1, (adjustBP_keeps _ _).1,
      adjustHR_val (lastN 3 (p.vitals_history.getD [])) defaultBaseline h]
    rfl
  · have hvals : (lastN 3 (c6Patient90.vitals_history.getD [])).filterMap truthyHR
        = [85, 90, 95] := by decide
    have hne : ¬ ((c6Patient90.vitals_history.getD []).isEmpty = true) := by decide
    simp only [get_patient_baseline_vitals]
    rw [if_neg hne, (adjustSpo2_keeps _ _).1, (adjustBP_keeps _ _).1,
      adjustHR_val _ _ (by simp [hvals]), hvals]
    norm_num [avgZ, truncQ]

/-- C6 (witness): the amended heart-rate formula instantiated on the
subject whose three historical heart rates average 90. -/
theorem C6_amended_witness :
    (get_patient_baseline_vitals c6Patient90).heart_rate_range =
      (max 50 (truncQ (avgZ (hrValuesOf c6Patient90) - 15)),
       min 120 (truncQ (avgZ (hrValuesOf c6Patient90) + 15))) :=
  C6_amended.2.1 c6Patient90 (by decide)

/-- C8: a malformed blood-pressure string such as "N/A" never parses
(no error is raised — the parse is total and returns `none`), deleting
every "N/A" entry from any history leaves the computed baseline
unchanged (so such entries contribute nothing to the averages), and
when at least one entry parses the blood-pressure ranges are adjusted
from the parsed values — for a history holding "N/A" and "140/90" the
result comes from 140/90 alone. -/
theorem C8_malformed_bp_skipped :
    parseBP "N/A" = none ∧
    (∀ p : Patient,
      get_patient_baseline_vitals (scrubNA p) = get_patient_baseline_vitals p) ∧
    (get_patient_baseline_vitals c8Patient).systolic_range = (130, 150) ∧
    (get_patient_baseline_vitals c8Patient).diastolic_range = (82, 98) := by
  refine ⟨by decide, fun p => ?_, ?_, ?_⟩
  · simp only [get_patient_baseline_vitals, hist_scrubNA, isEmpty_map_scrub]
    by_cases hh : (p.vitals_history.getD []).isEmpty
    · rw [if_pos hh, if_pos hh]
    · rw [if_neg hh, if_neg hh, lastN_map, adjustHR_scrub, adjustBP_scrub,
        adjustSpo2_scrub]
  · have hne : ¬ ((c8Patient.vitals_history.getD []).isEmpty = true) := by decide
    have hpairs :
        ((lastN 3 (c8Patient.vitals_history.getD [])).filterMap truthyBP).filterMap parseBP
          = [(140, 90)] := by decide
    simp only [get_patient_baseline_vitals]
    rw [if_neg hne, (adjustSpo2_keeps _ _).2.1, adjustBP_eq_bpApply, hpairs]
    norm_num [bpApply, avgZ, truncQ]
  · have hne : ¬ ((c8Patient.vitals_history.getD []).isEmpty = true) := by decide
    have hpairs :
        ((lastN 3 (c8Patient.vitals_history.getD [])).filterMap truthyBP).filterMap parseBP
          = [(140, 90)] := by decide
    simp only [get_patient_baseline_vitals]
    rw [if_neg hne, (adjustSpo2_keeps _ _).2.2.1, adjustBP_eq_bpApply, hpairs]
    norm_num [bpApply, avgZ, truncQ]

/-- C9: for every subject, whatever the historical vitals, the
temperature range of the computed baseline is the fixed default
[36.1, 37.2]; history never adjusts it. -/
theorem C9_temp_range_fixed (p : Patient) :
    (get_patient_baseline_vitals p).temp_range = (36.1, 37.2) := by
  simp only [get_patient_baseline_vitals]
  split
  · rfl
  · rw [(adjustSpo2_keeps _ _).2.2.2, (adjustBP_keeps _ _).2.1,
      (adjustHR_keeps _ _).2.2.1]
    rfl

/-- C10: RunStateStore round trip — `Set b` then `Get` returns `b`
(`Set` writes "1"/"0", `Get` tests the stripped content against "1"),
and before any `Set` (no file) `Get` returns `false`. -/
theorem C10_runstate_roundtrip :
    (∀ b : Bool, is_simulation_running (set_simulation_running b) = b) ∧
    is_simulation_running none = false := by
  refine ⟨fun b => ?_, rfl⟩
  cases b <;> decide

/-- C2 (code bug): a start attempt on an empty roster returns before the
`try`/`finally`, so the only write to the RunState store is the initial
`true` — the persisted flag is left reading as "running" even though no
loop runs and no subject is processed. -/
theorem C2_empty_roster_leaves_flag_true :
    producerMain [] (fun _ => true) g0 (fun _ => true) none "patient_id" "t" 5
      = { processed := [], storeWrites := [true], outcome := .emptyRoster } ∧
    is_simulation_running (set_simulation_running true) = true := by
  exact ⟨rfl, by decide⟩

theorem randint_const (g : RNG) (k : ℕ) (a b : ℤ) (h : a ≤ b) :
    randint g k a b = some (a + (g.ints k : ℤ) % (b - a + 1), k + 1) := by
  rw [randint, if_pos h]

theorem clampSample_inBounds (pid nm : String) (hr sys dia : ℤ) (temp spo2 : ℚ)
    (now : String) :
    sampleInBounds (clampSample pid nm hr sys dia temp spo2 now) := by
  simp only [sampleInBounds, clampSample]
  refine ⟨⟨le_max_left _ _, max_le (by norm_num) (min_le_left _ _)⟩,
    ⟨max 80 (min 200 sys), max 50 (min 120 dia), rfl,
      le_max_left _ _, max_le (by norm_num) (min_le_left _ _),
      le_max_left _ _, max_le (by norm_num) (min_le_left _ _)⟩,
    ⟨le_max_left _ _, max_le (by norm_num) (min_le_left _ _)⟩,
    ⟨le_max_left _ _, max_le (by norm_num) (min_le_left _ _)⟩⟩

/-- C1: every sample `generate_patient_vitals` returns lies inside the
hard physiological bounds — heart_rate in [40,180], systolic in
[80,200], diastolic in [50,120], temperature in [35,42], spo2 in
[70,100] — for every subject, every baseline (whatever its ranges), and
every random source / perturbation outcome, because the clamps are the
last numeric step before the record is built. -/
theorem C1_clamp_invariant (p : Patient) (b : Baseline) (g : RNG) (i : ℕ)
    (now : String) (s : VitalsSample) (j : ℕ)
    (h : generate_patient_vitals p b g i now = some (s, j)) :
    sampleInBounds s := by
  rw [generate_patient_vitals] at h
  simp only [Option.bind_eq_some, Option.some.injEq, Prod.mk.injEq] at h
  obtain ⟨hri, h1, sysi, h2, diai, h3, st, h4, pid, h5, hs, hj⟩ := h
  rw [← hs]
  exact clampSample_inBounds _ _ _ _ _ _ _ _

/-- C1 (witness): the invariant instantiated on a concrete subject,
the default baseline and the all-low random source. -/
theorem C1_witness :
    sampleInBounds
      { patient_id := "P1", patient_name := "Alice", heart_rate := 60,
        blood_pressure := "110/70", temperature_celsius := 36.1,
        oxygen_saturation := 95, timestamp := "t" } :=
  C1_clamp_invariant ⟨some "P1", some "Alice", none, none⟩ defaultBaseline g0 0 "t"
    _ 5 (by
      norm_num [generate_patient_vitals, randint, runiform, round1, roundHalfEven,
        applyConditions, conditionsOf, clampSample, defaultBaseline, unitDraw, g0,
        Option.bind]
      rfl)

theorem applyCond_total (g : RNG) (s : PState) (c : Condition) :
    ∃ s2, applyCond g s c = some s2 := by
  simp only [applyCond]
  repeat' split
  · rw [randint_const g _ 10 25 (by norm_num)]
    simp only [Option.some_bind]
    rw [randint_const g _ 5 15 (by norm_num)]
    simp only [Option.some_bind]
    exact ⟨_, rfl⟩
  · rw [randint_const g _ 0 10 (by norm_num)]
    simp only [Option.some_bind]
    exact ⟨_, rfl⟩
  · exact ⟨_, rfl⟩
  · rw [randint_const g _ 5 20 (by norm_num)]
    simp only [Option.some_bind]
    exact ⟨_, rfl⟩
  · exact ⟨s, rfl⟩

theorem applyConditions_total (g : RNG) (cs : List Condition) :
    ∀ s : PState, ∃ s2, applyConditions g cs s = some s2 := by
  induction cs with
  | nil => exact fun s => ⟨s, rfl⟩
  | cons c cs ih =>
    intro s
    obtain ⟨s1, h1⟩ := applyCond_total g s c
    obtain ⟨s2, h2⟩ := ih s1
    refine ⟨s2, ?_⟩
    rw [applyConditions, List.foldlM_cons, h1]
    exact h2

theorem generate_total (p : Patient) (b : Baseline) (g : RNG) (i : ℕ) (now : String)
    (hpid : p.patient_id.isSome = true)
    (hhr : b.heart_rate_range.1 ≤ b.heart_rate_range.2)
    (hsys : b.systolic_range.1 ≤ b.systolic_range.2)
    (hdia : b.diastolic_range.1 ≤ b.diastolic_range.2) :
    ∃ s j, generate_patient_vitals p b g i now = some (s, j) := by
  obtain ⟨pid, hp⟩ := Option.isSome_iff_exists.mp hpid
  rw [generate_patient_vitals, randint_const g i _ _ hhr]
  simp only [Option.some_bind]
  rw [randint_const g _ _ _ hsys]
  simp only [Option.some_bind]
  rw [randint_const g _ _ _ hdia]
  simp only [Option.some_bind]
  obtain ⟨st, hst⟩ := applyConditions_total g (conditionsOf p) _
  rw [hst]
  simp only [Option.some_bind]
  rw [hp]
  simp only [Option.some_bind]
  exact ⟨_, _, rfl⟩

/-- C7 (counterexample): a subject record without a subject identifier
makes `generate_patient_vitals` fail (`patient["patient_id"]` raises
`KeyError`, modelled as `none`), so "never fails ... including a
missing subject identifier" is false. -/
theorem C7_counterexample :
    generate_patient_vitals c7NoId defaultBaseline g0 0 "t" = none := by
  norm_num [generate_patient_vitals, randint, runiform, round1, roundHalfEven,
    applyConditions, conditionsOf, clampSample, defaultBaseline, unitDraw, g0,
    c7NoId, Option.bind]

/-- C7 (amended): for every subject record that *does* carry a subject
identifier — all other fields may be missing — and every baseline whose
integer ranges are non-empty, `Generate` succeeds and returns a sample;
and a subject with only an id gets the display-name default "Unknown". -/
theorem C7_missing_fields_default :
    (∀ (p : Patient) (b : Baseline) (g : RNG) (i : ℕ) (now : String),
      p.patient_id.isSome = true →
      b.heart_rate_range.1 ≤ b.heart_rate_range.2 →
      b.systolic_range.1 ≤ b.systolic_range.2 →
      b.diastolic_range.1 ≤ b.diastolic_range.2 →
      ∃ s j, generate_patient_vitals p b g i now = some (s, j)) ∧
    (∃ s : VitalsSample,
      generate_patient_vitals c4Patient defaultBaseline g0 0 "t" = some (s, 5) ∧
      s.patient_name = "Unknown") := by
  refine ⟨fun p b g i now hpid hhr hsys hdia =>
    generate_total p b g i now hpid hhr hsys hdia, ?_⟩
  refine ⟨{ patient_id := "P1", patient_name := "Unknown", heart_rate := 60,
            blood_pressure := "110/70", temperature_celsius := 36.1,
            oxygen_saturation := 95, timestamp := "t" }, ?_, rfl⟩
  norm_num [generate_patient_vitals, randint, runiform, round1, roundHalfEven,
    applyConditions, conditionsOf, clampSample, defaultBaseline, unitDraw, g0,
    c4Patient, Option.bind]
  rfl

/-- C7 (witness): the amended totality statement instantiated on the
minimal subject that has only an id, with the default baseline. -/
theorem C7_witness :
    ∃ s j, generate_patient_vitals c4Patient defaultBaseline g0 0 "t" = some (s, j) :=
  C7_missing_fields_default.1 c4Patient defaultBaseline g0 0 "t"
    (by decide) (by decide) (by decide) (by decide)

theorem runCycle_pub_core (σ : ℕ → Bool) (g : RNG) (pub1 pub2 : ℕ → Bool)
    (intr : Option ℕ) (pkf now : String) (bm : List (String × Baseline)) :
    ∀ (ps : List Patient) (ev1 ev2 : List LoopEvent) (k ri pj sl : ℕ),
      ev1.map evCore = ev2.map evCore →
      (runCycle σ g pub1 intr pkf now bm ps ⟨ev1, k, ri, pj, sl⟩).1.events.map evCore
        = (runCycle σ g pub2 intr pkf now bm ps ⟨ev2, k, ri, pj, sl⟩).1.events.map evCore ∧
      (runCycle σ g pub1 intr pkf now bm ps ⟨ev1, k, ri, pj, sl⟩).1.k
        = (runCycle σ g pub2 intr pkf now bm ps ⟨ev2, k, ri, pj, sl⟩).1.k ∧
      (runCycle σ g pub1 intr pkf now bm ps ⟨ev1, k, ri, pj, sl⟩).1.ri
        = (runCycle σ g pub2 intr pkf now bm ps ⟨ev2, k, ri, pj, sl⟩).1.ri ∧
      (runCycle σ g pub1 intr pkf now bm ps ⟨ev1, k, ri, pj, sl⟩).1.pj
        = (runCycle σ g pub2 intr pkf now bm ps ⟨ev2, k, ri, pj, sl⟩).1.pj ∧
      (runCycle σ g pub1 intr pkf now bm ps ⟨ev1, k, ri, pj, sl⟩).1.sl
        = (runCycle σ g pub2 intr pkf now bm ps ⟨ev2, k, ri, pj, sl⟩).1.sl ∧
      (runCycle σ g pub1 intr pkf now bm ps ⟨ev1, k, ri, pj, sl⟩).2
        = (runCycle σ g pub2 intr pkf now bm ps ⟨ev2, k, ri, pj, sl⟩).2 := by
  intro ps
  induction ps with
  | nil =>
    intro ev1 ev2 k ri pj sl hev
    exact ⟨hev, rfl, rfl, rfl, rfl, rfl⟩
  | cons p rest ih =>
    intro ev1 ev2 k ri pj sl hev
    simp only [runCycle]
    cases hσ : σ k with
    | false =>
      dsimp only
      exact ⟨hev, rfl, rfl, rfl, rfl, rfl⟩
    | true =>
      dsimp only
      cases hpid : p.patient_id with
      | none =>
        dsimp only
        exact ⟨hev, rfl, rfl, rfl, rfl, rfl⟩
      | some pid =>
        dsimp only
        cases hlb : lookupBaseline bm pid with
        | none =>
          dsimp only
          exact ⟨hev, rfl, rfl, rfl, rfl, rfl⟩
        | some b =>
          dsimp only
          cases hgen : generate_patient_vitals p b g ri now with
          | none =>
            dsimp only
            exact ⟨hev, rfl, rfl, rfl, rfl, rfl⟩
          | some vri =>
            obtain ⟨v, ri2⟩ := vri
            dsimp only
            by_cases hintr : intr = some sl
            · rw [if_pos hintr, if_pos hintr]
              refine ⟨?_, rfl, rfl, rfl, rfl, rfl⟩
              simp only [List.map_append, hev]
              rfl
            · rw [if_neg hintr, if_neg hintr]
              apply ih
              simp only [List.map_append, hev]
              rfl

theorem runLoop_pub_core (σ : ℕ → Bool) (g : RNG) (pub1 pub2 : ℕ → Bool)
    (intr : Option ℕ) (pkf now : String) (bm : List (String × Baseline))
    (roster : List Patient) :
    ∀ (fuel : ℕ) (ev1 ev2 : List LoopEvent) (k ri pj sl : ℕ),
      ev1.map evCore = ev2.map evCore →
      (runLoop σ g pub1 intr pkf now bm roster fuel ⟨ev1, k, ri, pj, sl⟩).1.events.map evCore
        = (runLoop σ g pub2 intr pkf now bm roster fuel ⟨ev2, k, ri, pj, sl⟩).1.events.map evCore ∧
      (runLoop σ g pub1 intr pkf now bm roster fuel ⟨ev1, k, ri, pj, sl⟩).2
        = (runLoop σ g pub2 intr pkf now bm roster fuel ⟨ev2, k, ri, pj, sl⟩).2 := by
  intro fuel
  induction fuel with
  | zero =>
    intro ev1 ev2 k ri pj sl hev
    simp only [runLoop]
    cases hσ : σ k <;> dsimp only <;> exact ⟨hev, rfl⟩
  | succ fuel ih =>
    intro ev1 ev2 k ri pj sl hev
    simp only [runLoop]
    cases hσ : σ k with
    | false =>
      dsimp only
      exact ⟨hev, rfl⟩
    | true =>
      dsimp only
      obtain ⟨hevC, hkC, hriC, hpjC, hslC, hocC⟩ :=
        runCycle_pub_core σ g pub1 pub2 intr pkf now bm roster ev1 ev2 (k + 1) ri pj sl hev
      cases hoc1 : (runCycle σ g pub1 intr pkf now bm roster ⟨ev1, k + 1, ri, pj, sl⟩).2 with
      | interrupted =>
        have hoc2 : (runCycle σ g pub2 intr pkf now bm roster ⟨ev2, k + 1, ri, pj, sl⟩).2
            = CycleStatus.interrupted := by rw [← hocC, hoc1]
        rw [hoc2]
        dsimp only
        exact ⟨hevC, rfl⟩
      | errored =>
        have hoc2 : (runCycle σ g pub2 intr pkf now bm roster ⟨ev2, k + 1, ri, pj, sl⟩).2
            = CycleStatus.errored := by rw [← hocC, hoc1]
        rw [hoc2]
        dsimp only
        exact ⟨hevC, rfl⟩
      | complete =>
        have hoc2 : (runCycle σ g pub2 intr pkf now bm roster ⟨ev2, k + 1, ri, pj, sl⟩).2
            = CycleStatus.complete := by rw [← hocC, hoc1]
        rw [hoc2]
        dsimp only
        rw [← hkC]
        cases hσ2 : σ (runCycle σ g pub1 intr pkf now bm roster ⟨ev1, k + 1, ri, pj, sl⟩).1.k with
        | false =>
          dsimp only
          exact ⟨hevC, rfl⟩
        | true =>
          dsimp only
          rw [← hslC]
          by_cases hintr :
              intr = some (runCycle σ g pub1 intr pkf now bm roster ⟨ev1, k + 1, ri, pj, sl⟩).1.sl
          · rw [if_pos hintr, if_pos hintr]
            exact ⟨hevC, rfl⟩
          · rw [if_neg hintr, if_neg hintr]
            rw [← hriC, ← hpjC]
            exact ih _ _ _ _ _ _ hevC
      | stoppedMid =>
        have hoc2 : (runCycle σ g pub2 intr pkf now bm roster ⟨ev2, k + 1, ri, pj, sl⟩).2
            = CycleStatus.stoppedMid := by rw [← hocC, hoc1]
        rw [hoc2]
        dsimp only
        rw [← hkC]
        cases hσ2 : σ (runCycle σ g pub1 intr pkf now bm roster ⟨ev1, k + 1, ri, pj, sl⟩).1.k with
        | false =>
          dsimp only
          exact ⟨hevC, rfl⟩
        | true =>
          dsimp only
          rw [← hslC]
          by_cases hintr :
              intr = some (runCycle σ g pub1 intr pkf now bm roster ⟨ev1, k + 1, ri, pj, sl⟩).1.sl
          · rw [if_pos hintr, if_pos hintr]
            exact ⟨hevC, rfl⟩
          · rw [if_neg hintr, if_neg hintr]
            rw [← hriC, ← hpjC]
            exact ih _ _ _ _ _ _ hevC

/-- C5: `send_vitals_to_kinesis` reports failure as `None` instead of
raising when the ingestion call errors, and the publish outcomes have no
influence on the rest of the run: two executions differing only in
which publish attempts fail process exactly the same subjects at the
same flag reads, end the same way, and write the same flag values — so
one subject's publish failure never prevents the next subject's
generate/publish attempt. -/
theorem C5_publish_failures_isolated :
    (∀ (roster : List Patient) (σ : ℕ → Bool) (g : RNG) (intr : Option ℕ)
        (pkf now : String) (fuel : ℕ) (pub1 pub2 : ℕ → Bool),
      (producerMain roster σ g pub1 intr pkf now fuel).processed.map evCore
        = (producerMain roster σ g pub2 intr pkf now fuel).processed.map evCore ∧
      (producerMain roster σ g pub1 intr pkf now fuel).outcome
        = (producerMain roster σ g pub2 intr pkf now fuel).outcome) ∧
    (∀ (pkf : String) (v : VitalsSample), send_vitals_to_kinesis false pkf v = none) := by
  constructor
  · intro roster σ g intr pkf now fuel pub1 pub2
    simp only [producerMain, initCycleState]
    by_cases hemp : roster.isEmpty = true
    · rw [if_pos hemp, if_pos hemp]
      exact ⟨rfl, rfl⟩
    · rw [if_neg hemp, if_neg hemp]
      by_cases hall : roster.all (fun p => p.patient_id.isSome) = true
      · rw [if_pos hall, if_pos hall]
        obtain ⟨hev, hoc⟩ := runLoop_pub_core σ g pub1 pub2 intr pkf now
          (roster.map (fun p => (p.patient_id.getD "", get_patient_baseline_vitals p)))
          roster fuel [] [] 0 0 0 0 rfl
        cases ho1 : (runLoop σ g pub1 intr pkf now
            (roster.map (fun p => (p.patient_id.getD "", get_patient_baseline_vitals p)))
            roster fuel ⟨[], 0, 0, 0, 0⟩).2 <;>
          rw [ho1] at hoc <;> rw [← hoc] <;> dsimp only <;> exact ⟨hev, rfl⟩
      · rw [if_neg hall, if_neg hall]
        exact ⟨rfl, rfl⟩
  · intro pkf v
    cases h : sampleStrField v pkf <;> simp [send_vitals_to_kinesis, h]

theorem runCycle_k_mono (σ : ℕ → Bool) (g : RNG) (pub : ℕ → Bool) (intr : Option ℕ)
    (pkf now : String) (bm : List (String × Baseline)) :
    ∀ (ps : List Patient) (st : CycleState),
      st.k ≤ (runCycle σ g pub intr pkf now bm ps st).1.k := by
  intro ps
  induction ps with
  | nil => intro st; exact le_refl _
  | cons p rest ih =>
    intro st
    simp only [runCycle]
    cases hσ : σ st.k with
    | false => dsimp only; exact Nat.le_succ _
    | true =>
      dsimp only
      cases hpid : p.patient_id with
      | none => dsimp only; exact Nat.le_succ _
      | some pid =>
        dsimp only
        cases hlb : lookupBaseline bm pid with
        | none => dsimp only; exact Nat.le_succ _
        | some b =>
          dsimp only
          cases hgen : generate_patient_vitals p b g st.ri now with
          | none => dsimp only; exact Nat.le_succ _
          | some vri =>
            obtain ⟨v, ri2⟩ := vri
            dsimp only
            by_cases hintr : intr = some st.sl
            · rw [if_pos hintr]; exact Nat.le_succ _
            · rw [if_neg hintr]
              have h2 := ih ⟨st.events ++ [⟨st.k, pid, (send_vitals_to_kinesis (pub st.pj) pkf v).isSome⟩], st.k + 1, ri2, st.pj + 1, st.sl + 1⟩
              exact le_trans (Nat.le_succ _) h2

theorem runCycle_events_lt (σ : ℕ → Bool) (g : RNG) (pub : ℕ → Bool) (intr : Option ℕ)
    (pkf now : String) (bm : List (String × Baseline)) (n : ℕ)
    (hσn : ∀ j, n ≤ j → σ j = false) :
    ∀ (ps : List Patient) (st : CycleState),
      ∀ e ∈ (runCycle σ g pub intr pkf now bm ps st).1.events,
        e ∈ st.events ∨ e.readIdx < n := by
  intro ps
  induction ps with
  | nil => intro st e he; exact Or.inl he
  | cons p rest ih =>
    intro st e
    simp only [runCycle]
    cases hσ : σ st.k with
    | false => dsimp only; exact fun he => Or.inl he
    | true =>
      have hk : st.k < n := by
        by_contra hcon
        have h2 := hσn st.k (Nat.le_of_not_lt hcon)
        rw [h2] at hσ
        exact Bool.noConfusion hσ
      dsimp only
      cases hpid : p.patient_id with
      | none => dsimp only; exact fun he => Or.inl he
      | some pid =>
        dsimp only
        cases hlb : lookupBaseline bm pid with
        | none => dsimp only; exact fun he => Or.inl he
        | some b =>
          dsimp only
          cases hgen : generate_patient_vitals p b g st.ri now with
          | none => dsimp only; exact fun he => Or.inl he
          | some vri =>
            obtain ⟨v, ri2⟩ := vri
            dsimp only
            by_cases hintr : intr = some st.sl
            · rw [if_pos hintr]
              intro he
              rcases List.mem_append.mp he with h | h
              · exact Or.inl h
              · right
                rw [List.mem_singleton.mp h]
                exact hk
            · rw [if_neg hintr]
              intro he
              rcases ih _ e he with h | h
              · rcases List.mem_append.mp h with h2 | h2
                · exact Or.inl h2
                · right
                  rw [List.mem_singleton.mp h2]
                  exact hk
              · exact Or.inr h

theorem runLoop_halts (σ : ℕ → Bool) (g : RNG) (pub : ℕ → Bool) (intr : Option ℕ)
    (pkf now : String) (bm : List (String × Baseline)) (roster : List Patient)
    (n : ℕ) (hσn : ∀ j, n ≤ j → σ j = false) :
    ∀ (fuel : ℕ) (st : CycleState), n ≤ fuel + st.k →
      (runLoop σ g pub intr pkf now bm roster fuel st).2 ≠ MainOutcome.fuelOut ∧
      (∀ e ∈ (runLoop σ g pub intr pkf now bm roster fuel st).1.events,
        e ∈ st.events ∨ e.readIdx < n) := by
  intro fuel
  induction fuel with
  | zero =>
    intro st hle
    simp only [runLoop]
    cases hσ : σ st.k with
    | false =>
      dsimp only
      exact ⟨fun h => MainOutcome.noConfusion h, fun e he => Or.inl he⟩
    | true =>
      have h2 : σ st.k = false := hσn st.k (by omega)
      rw [h2] at hσ
      exact Bool.noConfusion hσ
  | succ fuel ih =>
    intro st hle
    simp only [runLoop]
    cases hσ : σ st.k with
    | false =>
      dsimp only
      exact ⟨fun h => MainOutcome.noConfusion h, fun e he => Or.inl he⟩
    | true =>
      have hk : st.k < n := by
        by_contra hcon
        have h2 := hσn st.k (Nat.le_of_not_lt hcon)
        rw [h2] at hσ
        exact Bool.noConfusion hσ
      dsimp only
      have hmono : st.k + 1 ≤ (runCycle σ g pub intr pkf now bm roster
          ⟨st.events, st.k + 1, st.ri, st.pj, st.sl⟩).1.k :=
        runCycle_k_mono σ g pub intr pkf now bm roster
          ⟨st.events, st.k + 1, st.ri, st.pj, st.sl⟩
      have hevc := runCycle_events_lt σ g pub intr pkf now bm n hσn roster
        ⟨st.events, st.k + 1, st.ri, st.pj, st.sl⟩
      cases hoc : (runCycle σ g pub intr pkf now bm roster
          ⟨st.events, st.k + 1, st.ri, st.pj, st.sl⟩).2 with
      | interrupted =>
        dsimp only
        exact ⟨fun h => MainOutcome.noConfusion h, hevc⟩
      | errored =>
        dsimp only
        exact ⟨fun h => MainOutcome.noConfusion h, hevc⟩
      | complete =>
        dsimp only
        cases hσ2 : σ (runCycle σ g pub intr pkf now bm roster
            ⟨st.events, st.k + 1, st.ri, st.pj, st.sl⟩).1.k with
        | false =>
          dsimp only
          exact ⟨fun h => MainOutcome.noConfusion h, hevc⟩
        | true =>
          dsimp only
          by_cases hintr : intr = some (runCycle σ g pub intr pkf now bm roster
              ⟨st.events, st.k + 1, st.ri, st.pj, st.sl⟩).1.sl
          · rw [if_pos hintr]
            exact ⟨fun h => MainOutcome.noConfusion h, hevc⟩
          · rw [if_neg hintr]
            obtain ⟨hfo, hev2⟩ := ih ⟨(runCycle σ g pub intr pkf now bm roster
                ⟨st.events, st.k + 1, st.ri, st.pj, st.sl⟩).1.events,
              (runCycle σ g pub intr pkf now bm roster
                ⟨st.events, st.k + 1, st.ri, st.pj, st.sl⟩).1.k + 1,
              (runCycle σ g pub intr pkf now bm roster
                ⟨st.events, st.k + 1, st.ri, st.pj, st.sl⟩).1.ri,
              (runCycle σ g pub intr pkf now bm roster
                ⟨st.events, st.k + 1, st.ri, st.pj, st.sl⟩).1.pj,
              (runCycle σ g pub intr pkf now bm roster
                ⟨st.events, st.k + 1, st.ri, st.pj, st.sl⟩).1.sl + 1⟩ (by
                  dsimp only
                  omega)
            refine ⟨hfo, fun e he => ?_⟩
            rcases hev2 e he with h | h
            · exact hevc e h
            · exact Or.inr h
      | stoppedMid =>
        dsimp only
        cases hσ2 : σ (runCycle σ g pub intr pkf now bm roster
            ⟨st.events, st.k + 1, st.ri, st.pj, st.sl⟩).1.k with
        | false =>
          dsimp only
          exact ⟨fun h => MainOutcome.noConfusion h, hevc⟩
        | true =>
          dsimp only
          by_cases hintr : intr = some (runCycle σ g pub intr pkf now bm roster
              ⟨st.events, st.k + 1, st.ri, st.pj, st.sl⟩).1.sl
          · rw [if_pos hintr]
            exact ⟨fun h => MainOutcome.noConfusion h, hevc⟩
          · rw [if_neg hintr]
            obtain ⟨hfo, hev2⟩ := ih ⟨(runCycle σ g pub intr pkf now bm roster
                ⟨st.events, st.k + 1, st.ri, st.pj, st.sl⟩).1.events,
              (runCycle σ g pub intr pkf now bm roster
                ⟨st.events, st.k + 1, st.ri, st.pj, st.sl⟩).1.k + 1,
              (runCycle σ g pub intr pkf now bm roster
                ⟨st.events, st.k + 1, st.ri, st.pj, st.sl⟩).1.ri,
              (runCycle σ g pub intr pkf now bm roster
                ⟨st.events, st.k + 1, st.ri, st.pj, st.sl⟩).1.pj,
              (runCycle σ g pub intr pkf now bm roster
                ⟨st.events, st.k + 1, st.ri, st.pj, st.sl⟩).1.sl + 1⟩ (by
                  dsimp only
                  omega)
            refine ⟨hfo, fun e he => ?_⟩
            rcases hev2 e he with h | h
            · exact hevc e h
            · exact Or.inr h

/-- C4: (1) if from flag-read index n onward every read of RunState
returns false, the loop — given at least n cycles' worth of fuel — does
not run out of fuel (it halts at the next subject or cycle boundary),
and every subject it processed was admitted by a flag read strictly
before n; (2) however a non-empty-roster run ends (normal stop,
interrupt, or internal error — every outcome except the truncated
fuel-out observation), the last write to the RunState store is `false`
(the `finally` at line 201). -/
theorem C4_stop_and_clear :
    (∀ (roster : List Patient) (σ : ℕ → Bool) (g : RNG) (pub : ℕ → Bool)
        (intr : Option ℕ) (pkf now : String) (fuel n : ℕ),
      (∀ j, n ≤ j → σ j = false) → n ≤ fuel →
      (producerMain roster σ g pub intr pkf now fuel).outcome ≠ MainOutcome.fuelOut ∧
      ∀ e ∈ (producerMain roster σ g pub intr pkf now fuel).processed, e.readIdx < n) ∧
    (∀ (roster : List Patient) (σ : ℕ → Bool) (g : RNG) (pub : ℕ → Bool)
        (intr : Option ℕ) (pkf now : String) (fuel : ℕ),
      roster ≠ [] → (∀ p ∈ roster, p.patient_id.isSome = true) →
      (producerMain roster σ g pub intr pkf now fuel).outcome ≠ MainOutcome.fuelOut →
      (producerMain roster σ g pub intr pkf now fuel).storeWrites.getLast? = some false) := by
  constructor
  · intro roster σ g pub intr pkf now fuel n hσn hnf
    simp only [producerMain, initCycleState]
    by_cases hemp : roster.isEmpty = true
    · rw [if_pos hemp]
      exact ⟨fun h => MainOutcome.noConfusion h,
        fun e he => absurd he (List.not_mem_nil e)⟩
    · rw [if_neg hemp]
      by_cases hall : roster.all (fun p => p.patient_id.isSome) = true
      · rw [if_pos hall]
        obtain ⟨hfo, hev⟩ := runLoop_halts σ g pub intr pkf now
          (roster.map (fun p => (p.patient_id.getD "", get_patient_baseline_vitals p)))
          roster n hσn fuel ⟨[], 0, 0, 0, 0⟩ (by dsimp only; omega)
        cases hoc : (runLoop σ g pub intr pkf now
            (roster.map (fun p => (p.patient_id.getD "", get_patient_baseline_vitals p)))
            roster fuel ⟨[], 0, 0, 0, 0⟩).2 <;>
          first
            | exact absurd hoc hfo
            | (dsimp only
               refine ⟨fun h => MainOutcome.noConfusion h, fun e he => ?_⟩
               rcases hev e he with h | h
               · exact absurd h (List.not_mem_nil e)
               · exact h)
      · rw [if_neg hall]
        exact ⟨fun h => MainOutcome.noConfusion h,
          fun e he => absurd he (List.not_mem_nil e)⟩
  · intro roster σ g pub intr pkf now fuel hne hids hfo
    simp only [producerMain, initCycleState] at hfo ⊢
    have hemp : ¬ (roster.isEmpty = true) := by
      simpa [List.isEmpty_iff] using hne
    rw [if_neg hemp] at hfo ⊢
    have hall : roster.all (fun p => p.patient_id.isSome) = true := by
      rw [List.all_eq_true]
      exact hids
    rw [if_pos hall] at hfo ⊢
    cases hoc : (runLoop σ g pub intr pkf now
        (roster.map (fun p => (p.patient_id.getD "", get_patient_baseline_vitals p)))
        roster fuel ⟨[], 0, 0, 0, 0⟩).2 with
    | fuelOut =>
      rw [hoc] at hfo
      dsimp only at hfo
      exact absurd rfl hfo
    | emptyRoster => dsimp only; rfl
    | startError => dsimp only; rfl
    | finished => dsimp only; rfl
    | interrupted => dsimp only; rfl
    | errored => dsimp only; rfl

/-- C4 (witness): both parts instantiated on a one-subject roster with
a schedule that is false from the first read on. -/
theorem C4_witness :
    ((producerMain [c4Patient] (fun _ => false) g0 (fun _ => true) none "patient_id" "t" 0).outcome
        ≠ MainOutcome.fuelOut ∧
      ∀ e ∈ (producerMain [c4Patient] (fun _ => false) g0 (fun _ => true) none "patient_id" "t" 0).processed,
        e.readIdx < 0) ∧
    (producerMain [c4Patient] (fun _ => false) g0 (fun _ => true) none "patient_id" "t" 0).storeWrites.getLast?
      = some false :=
  ⟨C4_stop_and_clear.1 [c4Patient] (fun _ => false) g0 (fun _ => true) none "patient_id" "t" 0 0
      (fun _ _ => rfl) (le_refl 0),
   C4_stop_and_clear.2 [c4Patient] (fun _ => false) g0 (fun _ => true) none "patient_id" "t" 0
      (by decide) (by decide) (by decide)⟩
